import Mathlib

/-!
Verification of the multi-strategy spreadsheet cloning pipeline
(src/excel_clone.py and src/excel_clone_folder.py).

The Python sources are shallowly embedded below: pure helpers become Lean
functions, the per-cell / per-document control flow (try/except blocks,
fallback between strategies, counters) becomes explicit functions over small
inductive types describing the possible outcomes of the external calls, and
Python machine integers become Int/Nat.
-/

set_option maxRecDepth 4000

namespace ExcelClone

/-! ## Column letters: embedding of `_col_letter`
(src/excel_clone.py lines 159-165, identical in src/excel_clone_folder.py
lines 151-157).

Python:
    result = ""
    while col_num > 0:
        col_num, remainder = divmod(col_num - 1, 26)
        result = chr(65 + remainder) + result
    return result

The loop prepends `chr(65 + remainder)`; written as recursion this appends
the digit character after the recursive call on `(col_num - 1) // 26`.
`divmod` is floor division; the dividend `col_num - 1` is nonnegative inside
the loop, where floor division coincides with Lean's Euclidean `/` on Int. -/
def col_letter (col_num : Int) : String :=
  if 0 < col_num then
    col_letter ((col_num - 1) / 26) ++ String.singleton (Char.ofNat (65 + ((col_num - 1) % 26).toNat))
  else
    ""
termination_by col_num.toNat
decreasing_by
  have h2 : (col_num - 1) / 26 ≤ col_num - 1 := Int.ediv_le_self _ (by omega)
  have h1 : 0 ≤ (col_num - 1) / 26 := Int.ediv_nonneg (by omega) (by norm_num)
  omega

/-- Modelled from the spec: the decoding direction `colNumber` of the
column-letter bijection is not present in the source (the spec states
the testable property colNumber (colLetter n) == n); it is the standard
bijective base-26 decode: each letter contributes its alphabet position
(A = 1, ..., Z = 26). -/
def col_number (s : String) : Int :=
  s.data.foldl (fun acc ch => acc * 26 + ((ch.toNat : Int) - 64)) 0

theorem cn_append_char (s : String) (c : Char) :
    col_number (s ++ String.singleton c) = col_number s * 26 + ((c.toNat : Int) - 64) := by
  unfold col_number
  rw [String.data_append, List.foldl_append]
  rfl

theorem char_ofNat_toNat_of_lt26 (r : Nat) (h : r < 26) :
    (Char.ofNat (65 + r)).toNat = 65 + r := by
  interval_cases r <;> decide

theorem char_ofNat_upper (r : Nat) (h : r < 26) :
    'A' ≤ Char.ofNat (65 + r) ∧ Char.ofNat (65 + r) ≤ 'Z' := by
  interval_cases r <;> exact ⟨by decide, by decide⟩

theorem col_number_col_letter_aux : ∀ (k : Nat) (n : Int), 0 ≤ n → n.toNat = k →
    col_number (col_letter n) = n := by
  intro k
  induction k using Nat.strong_induction_on with
  | _ k ih =>
    intro n hn hk
    rw [col_letter.eq_def]
    by_cases h : 0 < n
    · rw [if_pos h, cn_append_char]
      have hmn : 0 ≤ (n - 1) % 26 := Int.emod_nonneg _ (by norm_num)
      have hml : (n - 1) % 26 < 26 := Int.emod_lt_of_pos _ (by norm_num)
      have hr : ((n - 1) % 26).toNat < 26 := by omega
      rw [char_ofNat_toNat_of_lt26 _ hr]
      have hq0 : 0 ≤ (n - 1) / 26 := Int.ediv_nonneg (by omega) (by norm_num)
      have hqlt : (n - 1) / 26 ≤ n - 1 := Int.ediv_le_self _ (by omega)
      rw [ih ((n - 1) / 26).toNat (by omega) _ hq0 rfl]
      have hde : 26 * ((n - 1) / 26) + (n - 1) % 26 = n - 1 := Int.ediv_add_emod _ _
      have hcast : (((65 + ((n - 1) % 26).toNat : Nat) : Int)) = 65 + (n - 1) % 26 := by
        push_cast
        omega
      rw [hcast]
      ring_nf
      omega
    · rw [if_neg h]
      have hz : n = 0 := by omega
      subst hz
      rfl

theorem col_letter_chars_aux : ∀ (k : Nat) (n : Int), n.toNat = k →
    ∀ c ∈ (col_letter n).data, 'A' ≤ c ∧ c ≤ 'Z' := by
  intro k
  induction k using Nat.strong_induction_on with
  | _ k ih =>
    intro n hk c hc
    rw [col_letter.eq_def] at hc
    by_cases h : 0 < n
    · rw [if_pos h, String.data_append] at hc
      rcases List.mem_append.mp hc with hl | hr
      · have hq0 : 0 ≤ (n - 1) / 26 := Int.ediv_nonneg (by omega) (by norm_num)
        have hqlt : (n - 1) / 26 ≤ n - 1 := Int.ediv_le_self _ (by omega)
        exact ih ((n - 1) / 26).toNat (by omega) _ rfl c hl
      · have hmn : 0 ≤ (n - 1) % 26 := Int.emod_nonneg _ (by norm_num)
        have hml : (n - 1) % 26 < 26 := Int.emod_lt_of_pos _ (by norm_num)
        have hrlt : ((n - 1) % 26).toNat < 26 := by omega
        have : c = Char.ofNat (65 + ((n - 1) % 26).toNat) := by
          simpa [String.singleton] using hr
        subst this
        exact char_ofNat_upper _ hrlt
    · rw [if_neg h] at hc
      simp [String.data] at hc

/-- C4: the column-number-to-letters conversion is a bijective base-26
numbering with no zero digit: decoding the letter string produced for any
n >= 1 yields n back, and the conversion maps 1 to A, 26 to Z, 27 to AA,
52 to AZ, 702 to ZZ and 703 to AAA. -/
theorem claim_C4 :
    (∀ n : Int, 1 ≤ n → col_number (col_letter n) = n) ∧
    col_letter 1 = "A" ∧ col_letter 26 = "Z" ∧ col_letter 27 = "AA" ∧
    col_letter 52 = "AZ" ∧ col_letter 702 = "ZZ" ∧ col_letter 703 = "AAA" := by
  refine ⟨fun n hn => col_number_col_letter_aux n.toNat n (by omega) rfl, ?_, ?_, ?_, ?_, ?_, ?_⟩
  all_goals simp [col_letter.eq_def] <;> decide

/-- Witness for C4 at the concrete input n = 28. -/
theorem claim_C4_witness : (1 : Int) ≤ 28 ∧ col_number (col_letter 28) = 28 := by
  refine ⟨by norm_num, claim_C4.1 28 (by norm_num)⟩

/-- C10: the column-letter conversion is total and terminating: for every
n >= 1 the loop measure strictly decreases under (n-1) div 26 and the result
is a non-empty string of uppercase letters A-Z, while every input n <= 0
yields the empty string. -/
theorem claim_C10 :
    (∀ n : Int, n ≤ 0 → col_letter n = "") ∧
    (∀ n : Int, 1 ≤ n →
      (col_letter n).data ≠ [] ∧ ∀ c ∈ (col_letter n).data, 'A' ≤ c ∧ c ≤ 'Z') ∧
    (∀ n : Int, 0 < n → ((n - 1) / 26).toNat < n.toNat) := by
  refine ⟨?_, ?_, ?_⟩
  · intro n hn
    rw [col_letter.eq_def, if_neg (by omega)]
  · intro n hn
    constructor
    · rw [col_letter.eq_def, if_pos (by omega), String.data_append]
      intro hcontra
      have := congrArg List.length hcontra
      simp [String.singleton] at this
    · exact col_letter_chars_aux n.toNat n rfl
  · intro n hn
    have h2 : (n - 1) / 26 ≤ n - 1 := Int.ediv_le_self _ (by omega)
    have h1 : 0 ≤ (n - 1) / 26 := Int.ediv_nonneg (by omega) (by norm_num)
    omega

/-- Witness for C10 at the concrete inputs n = -3, n = 0 and n = 30. -/
theorem claim_C10_witness :
    col_letter (-3) = "" ∧ col_letter 0 = "" ∧
    ((col_letter 30).data ≠ [] ∧ ∀ c ∈ (col_letter 30).data, 'A' ≤ c ∧ c ≤ 'Z') ∧
    ((30 - 1 : Int) / 26).toNat < (30 : Int).toNat := by
  exact ⟨claim_C10.1 (-3) (by norm_num), claim_C10.1 0 (by norm_num),
    claim_C10.2.1 30 (by norm_num), claim_C10.2.2 30 (by norm_num)⟩

/-! ## Worksheet XML synthesis: embedding of `_build_sheet_xml`
(src/excel_clone.py lines 105-146, src/excel_clone_folder.py lines 107-138).

The builder walks the value grid with enumerate, emitting one row element
per grid row (attribute r = start_row + i) and one cell element per grid
column (attribute r = column letters of start_col + j followed by the row
number).  Python branches on the value: None -> bare cell element;
str -> attribute t = inlineStr with an is/t child holding the text;
bool -> attribute t = b with a v child holding 1 or 0; otherwise (numbers,
date serials) a v child holding str(val).  The read of
ws.Cells(r, c).NumberFormat in excel_clone.py (lines 137-144) only ever
executes a pass statement and so has no effect on the produced XML; it is
omitted from the model.  XML elements are modelled structurally: only the
attributes and children the builder actually sets. -/

inductive CellValue
  | vNone
  | vStr (s : String)
  | vBool (b : Bool)
  | vNum (n : Int)
deriving DecidableEq

/-- A child of a synthesized cell element: either the is/t inline-string
wrapper or a v value element, each holding its text. -/
inductive CellChild
  | inlineText (t : String)
  | valueText (t : String)
deriving DecidableEq

/-- A synthesized c element: its r attribute, optional t attribute, and
children. -/
structure CellEl where
  ref : String
  typ : Option String
  children : List CellChild
deriving DecidableEq

/-- A synthesized row element: its r attribute and its cell elements. -/
structure RowEl where
  rowRef : String
  cells : List CellEl
deriving DecidableEq

/-- One cell element, as the inner loop body of `_build_sheet_xml` builds it
for the cell at (row r, column c) holding val. -/
def buildCellEl (r c : Int) (val : CellValue) : CellEl :=
  let cell_ref := col_letter c ++ toString r
  match val with
  | .vNone => ⟨cell_ref, none, []⟩
  | .vStr s => ⟨cell_ref, some "inlineStr", [.inlineText s]⟩
  | .vBool b => ⟨cell_ref, some "b", [.valueText (if b then "1" else "0")]⟩
  | .vNum n => ⟨cell_ref, none, [.valueText (toString n)]⟩

/-- The inner enumerate loop over one row's values; j is the running
enumerate index. -/
def buildCells (r start_col : Int) (j : Nat) : List CellValue → List CellEl
  | [] => []
  | val :: rest => buildCellEl r (start_col + j) val :: buildCells r start_col (j + 1) rest

/-- The outer enumerate loop over the grid's rows; i is the running
enumerate index. -/
def buildRows (start_row start_col : Int) (i : Nat) : List (List CellValue) → List RowEl
  | [] => []
  | row_vals :: rest =>
      ⟨toString (start_row + i), buildCells (start_row + i) start_col 0 row_vals⟩ ::
      buildRows start_row start_col (i + 1) rest

/-- Embedding of `_build_sheet_xml`: the sheetData content produced for a
value grid whose used region starts at (start_row, start_col). -/
def build_sheet_xml (values : List (List CellValue)) (start_row start_col : Int) : List RowEl :=
  buildRows start_row start_col 0 values

/-- The value encoding as the spec words it, for comparison with the
builder: absent value -> cell element with no value child; string ->
inline string typed inlineStr; boolean -> type b with value text 1 or 0;
numeric -> plain numeric text. -/
def specValueEncoding : CellValue → Option String × List CellChild
  | .vNone => (none, [])
  | .vStr s => (some "inlineStr", [.inlineText s])
  | .vBool b => (some "b", [.valueText (if b then "1" else "0")])
  | .vNum n => (none, [.valueText (toString n)])

theorem col_letter_one : col_letter 1 = "A" := by
  simp [col_letter.eq_def]
  decide

theorem col_letter_two : col_letter 2 = "B" := by
  simp [col_letter.eq_def]
  decide

theorem buildCells_get? :
    ∀ (vs : List CellValue) (r sc : Int) (j k : Nat),
      (buildCells r sc j vs).get? k = (vs.get? k).map (fun v => buildCellEl r (sc + j + k) v) := by
  intro vs
  induction vs with
  | nil => intro r sc j k; simp [buildCells]
  | cons v rest ih =>
    intro r sc j k
    cases k with
    | zero => simp [buildCells]
    | succ k' =>
      simp only [buildCells, List.get?_cons_succ]
      rw [ih r sc (j + 1) k']
      congr 1
      push_cast
      ring_nf

theorem buildRows_get? :
    ∀ (vss : List (List CellValue)) (sr sc : Int) (i k : Nat),
      (buildRows sr sc i vss).get? k =
        (vss.get? k).map (fun row => ⟨toString (sr + i + k), buildCells (sr + i + k) sc 0 row⟩) := by
  intro vss
  induction vss with
  | nil => intro sr sc i k; simp [buildRows]
  | cons row rest ih =>
    intro sr sc i k
    cases k with
    | zero => simp [buildRows]
    | succ k' =>
      simp only [buildRows, List.get?_cons_succ]
      rw [ih sr sc (i + 1) k']
      congr 1
      push_cast
      ring_nf

/-- C3: in Strategy B the synthesized worksheet XML encodes every cell's
value as the spec states (absent -> no value child; string -> inline string
typed inlineStr; boolean -> type b with text 1 or 0; numeric -> plain
numeric text), at the cell's original row/column reference; in particular
the sample grid Name/Age, Ana/30, Leo/25 with a 1-based origin yields
inline-string cells A1, B1 and numeric cells B2 = 30, B3 = 25. -/
theorem claim_C3 :
    (∀ (values : List (List CellValue)) (sr sc : Int) (i j : Nat)
        (row : List CellValue) (v : CellValue),
        values.get? i = some row → row.get? j = some v →
        ∃ re : RowEl, (build_sheet_xml values sr sc).get? i = some re ∧
          re.rowRef = toString (sr + i) ∧
          re.cells.get? j = some ⟨col_letter (sc + j) ++ toString (sr + i),
            (specValueEncoding v).1, (specValueEncoding v).2⟩) ∧
    build_sheet_xml
        [[.vStr "Name", .vStr "Age"], [.vStr "Ana", .vNum 30], [.vStr "Leo", .vNum 25]] 1 1 =
      [⟨"1", [⟨"A1", some "inlineStr", [.inlineText "Name"]⟩,
              ⟨"B1", some "inlineStr", [.inlineText "Age"]⟩]⟩,
       ⟨"2", [⟨"A2", some "inlineStr", [.inlineText "Ana"]⟩,
              ⟨"B2", none, [.valueText "30"]⟩]⟩,
       ⟨"3", [⟨"A3", some "inlineStr", [.inlineText "Leo"]⟩,
              ⟨"B3", none, [.valueText "25"]⟩]⟩] := by
  constructor
  · intro values sr sc i j row v hi hj
    refine ⟨⟨toString (sr + i), buildCells (sr + i) sc 0 row⟩, ?_, rfl, ?_⟩
    · rw [build_sheet_xml, buildRows_get?, hi]
      simp
    · rw [buildCells_get?, hj]
      cases v <;> simp [buildCellEl, specValueEncoding]
  · simp [build_sheet_xml, buildRows, buildCells, buildCellEl, col_letter_one, col_letter_two]
    decide

/-- Witness for C3: the general encoding statement applied to the sample
grid at cell (0, 1), the inline-string cell B1 = Age. -/
theorem claim_C3_witness :
    ∃ re : RowEl,
      (build_sheet_xml
        [[.vStr "Name", .vStr "Age"], [.vStr "Ana", .vNum 30], [.vStr "Leo", .vNum 25]] 1 1).get? 0 =
        some re ∧
      re.rowRef = toString (1 + (0 : Nat) : Int) ∧
      re.cells.get? 1 = some ⟨col_letter (1 + (1 : Nat)) ++ toString (1 + (0 : Nat) : Int),
        (specValueEncoding (.vStr "Age")).1, (specValueEncoding (.vStr "Age")).2⟩ :=
  claim_C3.1 [[.vStr "Name", .vStr "Age"], [.vStr "Ana", .vNum 30], [.vStr "Leo", .vNum 25]]
    1 1 0 1 [.vStr "Name", .vStr "Age"] (.vStr "Age") rfl rfl

/-! ## Color conversion: embedding of `_bgr_to_hex`
(src/excel_clone.py lines 275-281).

Python:
    c = int(color_int)
    b = (c >> 16) & 0xFF
    g = (c >> 8) & 0xFF
    r = c & 0xFF
    return f"RR GG BB hex digits"   (format spec 02X per byte, uppercase)
-/

/-- Uppercase hexadecimal digit character for a value below 16, as produced
by Python's X format spec (0-9 then A-F). -/
def hexDigit (n : Nat) : Char :=
  Char.ofNat (if n < 10 then 48 + n else 55 + n)

/-- Two-digit uppercase hex rendering of a byte, as Python's 02X format spec
produces for values below 256 (the only values `_bgr_to_hex` feeds it). -/
def toHex2 (n : Nat) : String :=
  ⟨[hexDigit (n / 16), hexDigit (n % 16)]⟩

/-- Embedding of `_bgr_to_hex`: extract blue, green, red bytes from the
host's 0xBBGGRR packing and render as an RRGGBB hex string. -/
def bgr_to_hex (c : Nat) : String :=
  let b := (c >>> 16) &&& 0xFF
  let g := (c >>> 8) &&& 0xFF
  let r := c &&& 0xFF
  toHex2 r ++ toHex2 g ++ toHex2 b

/-- Value of an uppercase hex digit character (inverse of hexDigit). -/
def hexVal (ch : Char) : Nat :=
  if 65 ≤ ch.toNat then ch.toNat - 55 else ch.toNat - 48

/-- Modelled from the spec: the re-encoding direction `rgbToHost` is not in
the source (the spec states the testable property
rgbToHost (hostToRgb c) == c); it decodes the six-hex-digit RRGGBB string
and repacks the three bytes into the host's 0xBBGGRR integer layout
(blue in the high byte, then green, then red). -/
def rgb_to_host (s : String) : Nat :=
  match s.data with
  | [r1, r0, g1, g0, b1, b0] =>
      (16 * hexVal b1 + hexVal b0) * 65536 +
      (16 * hexVal g1 + hexVal g0) * 256 +
      (16 * hexVal r1 + hexVal r0)
  | _ => 0

theorem hexVal_hexDigit (n : Nat) (h : n < 16) : hexVal (hexDigit n) = n := by
  interval_cases n <;> decide

theorem rgb_to_host_bytes (r g b : Nat) (hr : r < 256) (hg : g < 256) (hb : b < 256) :
    rgb_to_host (toHex2 r ++ toHex2 g ++ toHex2 b) = b * 65536 + g * 256 + r := by
  have hdata : (toHex2 r ++ toHex2 g ++ toHex2 b).data
      = [hexDigit (r / 16), hexDigit (r % 16), hexDigit (g / 16), hexDigit (g % 16),
         hexDigit (b / 16), hexDigit (b % 16)] := by
    simp [String.data_append, toHex2]
  unfold rgb_to_host
  rw [hdata]
  have e1 := hexVal_hexDigit (r / 16) (by omega)
  have e2 := hexVal_hexDigit (r % 16) (by omega)
  have e3 := hexVal_hexDigit (g / 16) (by omega)
  have e4 := hexVal_hexDigit (g % 16) (by omega)
  have e5 := hexVal_hexDigit (b / 16) (by omega)
  have e6 := hexVal_hexDigit (b % 16) (by omega)
  simp only [e1, e2, e3, e4, e5, e6]
  omega

/-- C5: host-to-target color conversion is symmetric: for every 24-bit
integer c packed as 0xBBGGRR, rendering it as an RRGGBB hex string with
`_bgr_to_hex` and re-encoding that string back to the host packing
reproduces c. -/
theorem claim_C5 (c : Nat) (hc : c < 2 ^ 24) : rgb_to_host (bgr_to_hex c) = c := by
  have h16 : c >>> 16 = c / 65536 := by
    have := Nat.shiftRight_eq_div_pow c 16
    norm_num at this
    exact this
  have h8 : c >>> 8 = c / 256 := by
    have := Nat.shiftRight_eq_div_pow c 8
    norm_num at this
    exact this
  have hmask : ∀ x : Nat, x &&& 0xFF = x % 256 := by
    intro x
    have := Nat.and_pow_two_sub_one_eq_mod x 8
    norm_num at this
    exact this
  unfold bgr_to_hex
  simp only [h16, h8, hmask]
  rw [rgb_to_host_bytes _ _ _ (Nat.mod_lt _ (by norm_num)) (Nat.mod_lt _ (by norm_num))
    (Nat.mod_lt _ (by norm_num))]
  omega

/-- Witness for C5 at the concrete color 0xABCDEF. -/
theorem claim_C5_witness :
    11259375 < 2 ^ 24 ∧ rgb_to_host (bgr_to_hex 11259375) = 11259375 :=
  ⟨by norm_num, claim_C5 11259375 (by norm_num)⟩

/-! ## Fallback controller: embedding of `_clone`
(src/excel_clone.py lines 436-441).

In the spec's vocabulary, approach_1 is Strategy B (template injection)
and approach_2 is Strategy C (full reconstruction). No archive-recopy
code (Strategy A: native save-a-copy plus container validation) exists
anywhere in the source, so no run can ever invoke A.

approach_1 (lines 35-102) returns False only on its fast-fail path, when
the template folder is missing (lines 39-42); once the template has been
duplicated, a failure of any later step (COM read, worksheet write,
rezip) raises, and `_clone` has no handler: the exception propagates out
of `_clone` and approach_2 never runs.  approach_2 returns True when it
completes; a failure inside it likewise raises out of `_clone`.  The
folder driver (src/excel_clone_folder.py main, lines 210-216) invokes
only the template-injection clone, with no fallback at all. -/

inductive Strategy
  | A
  | B
  | C
deriving DecidableEq

/-- The three ways approach_1 (and the folder driver's clone) can end:
returning True (injection completed), returning False (template folder
missing — the only return False in the function), or raising out of a
step after the template duplication. -/
inductive AOutcome
  | retTrue
  | retFalse
  | raised
deriving DecidableEq, Fintype

/-- How one controller run ends: completing normally after a successful
strategy, reporting failure (the folder driver's False return), or an
exception escaping the run. -/
inductive RunResult
  | success
  | failure
  | raised
deriving DecidableEq

/-- One run of the fallback controller: the strategies invoked, in order,
and how the run ended. -/
structure CloneRun where
  invoked : List Strategy
  result : RunResult
deriving DecidableEq

/-- Embedding of `_clone`: approach_1 runs first; approach_2 runs exactly
when approach_1 RETURNS False (template missing); an exception raised
inside approach_1 propagates out of `_clone` without approach_2 ever
running. c_completes models approach_2 completing rather than raising. -/
def clone_run (a : AOutcome) (c_completes : Bool) : CloneRun :=
  match a with
  | .retTrue => ⟨[.B], .success⟩
  | .raised => ⟨[.B], .raised⟩
  | .retFalse => ⟨[.B, .C], if c_completes then .success else .raised⟩

/-- Embedding of the per-document body of the folder driver's loop
(src/excel_clone_folder.py lines 210-216): only the template-injection
clone is invoked, with no fallback; a False return is reported as a
failure, a raise propagates to the loop's except. -/
def folder_clone_run (a : AOutcome) : CloneRun :=
  ⟨[.B],
    match a with
    | .retTrue => .success
    | .retFalse => .failure
    | .raised => .raised⟩

/-- Counterexample to C1 as stated: in the run that traces the source's
only real fallback path (template folder missing, so approach_1 returns
False and approach_2 completes), the controller invokes Strategy B first
and then Strategy C; Strategy A is never invoked — in no run, in either
file, does the claimed canonical order start at A. -/
theorem claim_C1_counterexample :
    (clone_run AOutcome.retFalse true).invoked = [Strategy.B, Strategy.C] ∧
    (clone_run AOutcome.retFalse true).invoked.head? ≠ some Strategy.A ∧
    Strategy.A ∉ (clone_run AOutcome.retFalse true).invoked ∧
    Strategy.A ∉ (folder_clone_run AOutcome.retTrue).invoked := by
  decide

/-- C1 amended: `_clone` tries Strategy B first and Strategy A never; B
is invoked exactly once per run; Strategy C is invoked exactly when
approach_1 returns False, which happens only on the missing-template
fast-fail — an injection failure after the template duplication raises
out of the run and C is never tried; when C is invoked the run succeeds
iff C completes; the folder driver invokes only B, with no fallback. -/
theorem claim_C1 :
    ∀ (a : AOutcome) (c : Bool),
      (clone_run a c).invoked.head? = some Strategy.B ∧
      Strategy.A ∉ (clone_run a c).invoked ∧
      (clone_run a c).invoked.count Strategy.B = 1 ∧
      (Strategy.C ∈ (clone_run a c).invoked ↔ a = AOutcome.retFalse) ∧
      (a = AOutcome.retFalse →
        (clone_run a c).result = if c then RunResult.success else RunResult.raised) ∧
      (a = AOutcome.retTrue → (clone_run a c).result = RunResult.success) ∧
      (a = AOutcome.raised →
        (clone_run a c).result = RunResult.raised ∧ (clone_run a c).invoked = [Strategy.B]) ∧
      (folder_clone_run a).invoked = [Strategy.B] := by
  decide

/-- Witness for C1 amended at the concrete run with the template missing
and approach_2 completing: C is invoked and the run succeeds. -/
theorem claim_C1_witness :
    Strategy.C ∈ (clone_run AOutcome.retFalse true).invoked ∧
    (clone_run AOutcome.retFalse true).result = RunResult.success := by
  refine ⟨((claim_C1 AOutcome.retFalse true).2.2.2.1).mpr rfl, ?_⟩
  have h := (claim_C1 AOutcome.retFalse true).2.2.2.2.1 rfl
  simpa using h

/-! ## Strategy C per-cell style copying: embedding of the cell loop of
`approach_2` (src/excel_clone.py lines 211-229).

Python:
    try:
        src = ws.Cells(r, c)
        _copy_font(src, out_cell)
        _copy_fill(src, out_cell)
        _copy_alignment(src, out_cell)
        _copy_number_format(src, out_cell)
        _copy_borders(src, out_cell)
    except Exception:
        pass

A single try/except wraps all five copy calls of one cell, so an attribute
read that raises aborts the remaining copies of that same cell; the except
swallows the exception, so the loop always continues with the next cell. -/

inductive Attr
  | font
  | fill
  | alignment
  | numberFormat
  | borders
deriving DecidableEq

/-- The five copy calls in their source order. -/
def attrOrder : List Attr := [.font, .fill, .alignment, .numberFormat, .borders]

/-- Runs the copy calls in order under the single per-cell guard: fails a
models the read of facet a raising; the first failing facet aborts the
rest of the cell. Returns the facets actually applied to the cell. -/
def runCopies (fails : Attr → Bool) : List Attr → List Attr
  | [] => []
  | a :: rest => if fails a then [] else a :: runCopies fails rest

/-- Embedding of the loop over the region's cells (cells indexed 0..n-1 in
traversal order): each cell body has its own guard, so cell k's applied
facets depend only on cell k's reads. -/
def processCells (n : Nat) (fails : Nat → Attr → Bool) : List (List Attr) :=
  (List.range n).map (fun k => runCopies (fails k) attrOrder)

theorem runCopies_eq_takeWhile (fails : Attr → Bool) :
    ∀ l : List Attr, runCopies fails l = l.takeWhile (fun a => ! fails a) := by
  intro l
  induction l with
  | nil => rfl
  | cons a rest ih =>
    simp only [runCopies, List.takeWhile]
    cases h : fails a <;> simp [h, ih]

/-- Counterexample to C2 as stated: when only the font read of a cell
fails, the fill read would succeed, yet fill (like the other three
remaining facets) is not applied to that cell, because the single
try/except aborts the whole per-cell sequence. -/
theorem claim_C2_counterexample :
    (fun a => decide (a = Attr.font)) Attr.fill = false ∧
    runCopies (fun a => decide (a = Attr.font)) attrOrder = [] ∧
    Attr.fill ∉ runCopies (fun a => decide (a = Attr.font)) attrOrder := by
  decide

/-- C2 amended: the five facets are attempted in the order font, fill,
alignment, number-format, borders under one per-cell guard: the facets
applied to a cell are exactly the prefix before the first failing read
(so a failure skips the remaining facets of that cell, and with no failure
all five are applied), while processing of subsequent cells is never
aborted — every cell of the region is processed and its outcome depends
only on its own reads. -/
theorem claim_C2 :
    (∀ (n : Nat) (fails : Nat → Attr → Bool),
      (processCells n fails).length = n ∧
      ∀ k, k < n → (processCells n fails).get? k = some (runCopies (fails k) attrOrder)) ∧
    (∀ fails : Attr → Bool,
      runCopies fails attrOrder = attrOrder.takeWhile (fun a => ! fails a)) ∧
    (∀ fails : Attr → Bool, (∀ a, fails a = false) → runCopies fails attrOrder = attrOrder) ∧
    (∀ (fails : Attr → Bool) (a : Attr), a ∈ runCopies fails attrOrder → fails a = false) := by
  refine ⟨?_, ?_, ?_, ?_⟩
  · intro n fails
    constructor
    · simp [processCells]
    · intro k hk
      simp [processCells, List.get?_eq_getElem?, List.getElem?_map, List.getElem?_range hk]
  · intro fails
    exact runCopies_eq_takeWhile fails attrOrder
  · intro fails h
    simp [runCopies, attrOrder, h]
  · intro fails a ha
    rw [runCopies_eq_takeWhile] at ha
    have := List.mem_takeWhile_imp ha
    simpa using this

/-- Witness for C2 amended: two cells, no failing reads on cell 0, a font
failure on cell 1; cell 1 is still processed. -/
theorem claim_C2_witness :
    (processCells 2 (fun k a => decide (k = 1 ∧ a = Attr.font))).length = 2 ∧
    (processCells 2 (fun k a => decide (k = 1 ∧ a = Attr.font))).get? 1 =
      some (runCopies (fun a => decide (1 = 1 ∧ a = Attr.font)) attrOrder) ∧
    runCopies (fun _ => false) attrOrder = attrOrder ∧
    (fun a : Attr => decide (a = Attr.borders)) Attr.fill = false :=
  ⟨(claim_C2.1 2 (fun k a => decide (k = 1 ∧ a = Attr.font))).1,
   (claim_C2.1 2 (fun k a => decide (k = 1 ∧ a = Attr.font))).2 1 (by norm_num),
   claim_C2.2.2.1 (fun _ => false) (fun _ => rfl),
   claim_C2.2.2.2 (fun a => decide (a = Attr.borders)) Attr.fill (by decide)⟩

/-! ## Scratch-directory lifecycle of a Strategy B run: embedding of
`approach_1` (src/excel_clone.py lines 35-102) and `clone`
(src/excel_clone_folder.py lines 37-102).

Python (identical in both files for the scratch handling):
    if not os.path.isdir(TEMPLATE_DIR): return False
    if os.path.exists(WORK_DIR): shutil.rmtree(WORK_DIR)
    shutil.copytree(TEMPLATE_DIR, WORK_DIR)
    ... sheet loop ... _build_shared_strings ... zipfile rezip ...
    shutil.rmtree(WORK_DIR)
    return True

The final rmtree is a plain statement, not a finally block: an exception
raised by any step between copytree and the final rmtree propagates with
WORK_DIR still on disk. -/

/-- The steps of a run that execute between the template duplication and
the final cleanup, in source order. -/
inductive BStep
  | writeSheets
  | sharedStrings
  | zipOutput
deriving DecidableEq, Fintype

inductive BOutcome
  | ok
  | failed
  | raised
deriving DecidableEq

/-- Embedding of one Strategy B run at the level of scratch-directory
state: work_dir_exists is whether WORK_DIR is on disk when the run starts,
fail_at names the step (if any) whose underlying call raises. Returns the
WORK_DIR state at exit and the run's outcome. -/
def strategyB_run (template_available : Bool) (fail_at : Option BStep)
    (work_dir_exists : Bool) : Bool × BOutcome :=
  if !template_available then (work_dir_exists, .failed)
  else
    -- rmtree of any stale WORK_DIR, then copytree: the scratch tree now
    -- exists regardless of work_dir_exists, and stays on disk until the
    -- final rmtree, which only the fully successful path reaches
    if fail_at = some .writeSheets then (true, .raised)
    else if fail_at = some .sharedStrings then (true, .raised)
    else if fail_at = some .zipOutput then (true, .raised)
    else (false, .ok)

/-- Counterexample to C6 as stated: a run in which the rezip step raises
(after the template duplication) exits with the scratch directory still on
disk, so the scratch tree is not deleted on every exit path. -/
theorem claim_C6_counterexample :
    strategyB_run true (some BStep.zipOutput) false = (true, BOutcome.raised) ∧
    (strategyB_run true (some BStep.zipOutput) false).1 = true := by
  decide

/-- C6 amended: a successful Strategy B run deletes the scratch tree
before returning, and every run that reaches the template duplication
first deletes any pre-existing scratch path (the run's behaviour is
independent of the initial scratch state); but when a step after the
duplication raises, the run exits with the scratch tree still on disk —
it is only removed by the next run's initial cleanup. -/
theorem claim_C6 :
    (∀ init : Bool, strategyB_run true none init = (false, .ok)) ∧
    (∀ (fa : Option BStep) (init init' : Bool),
      strategyB_run true fa init = strategyB_run true fa init') ∧
    (∀ (s : BStep) (init : Bool), strategyB_run true (some s) init = (true, .raised)) ∧
    (∀ init : Bool, strategyB_run false none init = (init, .failed)) := by
  decide

/-! ## Merge accumulation: embedding of the merged-cells loop of
`approach_2` (src/excel_clone.py lines 250-263).

Python:
    merged_done = set()
    for every cell (r, c) of the region:
        try:
            cell = ws.Cells(r, c)
            if cell.MergeCells:
                addr = cell.MergeArea.Address.replace(dollar, empty)
                if addr not in merged_done:
                    merged_done.add(addr)
                    out_ws.merge_cells(addr)
        except Exception:
            pass

Cells are modelled by what the traversal reads from them: the merge-area
address when the cell participates in a merge, none otherwise (none also
covers a read that raises, which the per-cell except swallows). An address
is appended — and out_ws.merge_cells invoked — exactly when it is not
already present, so the accumulated list is at once merged_done and the
sequence of merge_cells applications. -/

def accumulate_merges : List (Option String) → List String → List String
  | [], acc => acc
  | none :: rest, acc => accumulate_merges rest acc
  | some addr :: rest, acc =>
      if addr ∈ acc then accumulate_merges rest acc
      else accumulate_merges rest (acc ++ [addr])

/-- The merge regions applied to the output worksheet over one sheet's
traversal. -/
def merges_applied (cells : List (Option String)) : List String :=
  accumulate_merges cells []

theorem accumulate_nodup : ∀ (cells : List (Option String)) (acc : List String),
    acc.Nodup → (accumulate_merges cells acc).Nodup := by
  intro cells
  induction cells with
  | nil => intro acc h; exact h
  | cons c rest ih =>
    intro acc h
    cases c with
    | none => exact ih acc h
    | some addr =>
      simp only [accumulate_merges]
      by_cases hmem : addr ∈ acc
      · rw [if_pos hmem]; exact ih acc h
      · rw [if_neg hmem]
        refine ih _ ?_
        simp [List.nodup_append, h, hmem]

theorem accumulate_mem : ∀ (cells : List (Option String)) (acc : List String) (a : String),
    a ∈ accumulate_merges cells acc ↔ a ∈ acc ∨ some a ∈ cells := by
  intro cells
  induction cells with
  | nil => intro acc a; simp [accumulate_merges]
  | cons c rest ih =>
    intro acc a
    cases c with
    | none => simp [accumulate_merges, ih]
    | some addr =>
      simp only [accumulate_merges]
      by_cases hmem : addr ∈ acc
      · rw [if_pos hmem, ih]
        constructor
        · rintro (h | h)
          · exact Or.inl h
          · exact Or.inr (by simp [h])
        · rintro (h | h)
          · exact Or.inl h
          · rcases List.mem_cons.mp h with h | h
            · cases h
              exact Or.inl hmem
            · exact Or.inr h
      · rw [if_neg hmem, ih]
        constructor
        · rintro (h | h)
          · rcases List.mem_append.mp h with h | h
            · exact Or.inl h
            · simp at h
              subst h
              exact Or.inr (by simp)
          · exact Or.inr (by simp [h])
        · rintro (h | h)
          · exact Or.inl (List.mem_append.mpr (Or.inl h))
          · rcases List.mem_cons.mp h with h | h
            · cases h
              exact Or.inl (by simp)
            · exact Or.inr h

/-- C8: each distinct merge address is recorded exactly once: the applied
list has no duplicates, contains exactly the addresses seen during the
traversal, each with multiplicity one; in particular iterating all four
constituent cells of a merge spanning (1,1)-(2,2) yields exactly one
entry. -/
theorem claim_C8 :
    (∀ cells : List (Option String),
      (merges_applied cells).Nodup ∧
      (∀ a : String, a ∈ merges_applied cells ↔ some a ∈ cells) ∧
      (∀ a : String, some a ∈ cells → (merges_applied cells).count a = 1)) ∧
    merges_applied [some "A1:B2", some "A1:B2", some "A1:B2", some "A1:B2"] = ["A1:B2"] := by
  constructor
  · intro cells
    have hnd : (merges_applied cells).Nodup :=
      accumulate_nodup cells [] List.nodup_nil
    have hmem : ∀ a, a ∈ merges_applied cells ↔ some a ∈ cells := by
      intro a
      unfold merges_applied
      rw [accumulate_mem]
      simp
    exact ⟨hnd, hmem, fun a ha => List.count_eq_one_of_mem hnd ((hmem a).mpr ha)⟩
  · decide

/-- Witness for C8 on a traversal with a repeated merge address, a
non-merged cell and a second distinct merge. -/
theorem claim_C8_witness :
    some "A1:B2" ∈ [some "A1:B2", none, some "A1:B2", some "C3:D4"] ∧
    (merges_applied [some "A1:B2", none, some "A1:B2", some "C3:D4"]).count "A1:B2" = 1 :=
  ⟨by decide,
   (claim_C8.1 [some "A1:B2", none, some "A1:B2", some "C3:D4"]).2.2 "A1:B2" (by decide)⟩

/-! ## Batch driver: embedding of the per-document loop of `main`
(src/excel_clone_folder.py lines 194-234).

Python:
    success = 0
    failed = 0
    for filepath in xlsx_files:
        try:
            wb = excel.Workbooks.Open(filepath, ReadOnly=True)
            if clone(wb, temp_output):
                shutil.copy2(temp_output, final_output)
                os.remove(temp_output)
                success += 1
            else:
                failed += 1
            wb.Close(SaveChanges=False)
        except Exception as e:
            failed += 1
            ... wb.Close attempt, its own exception swallowed ...
    ... print Processed (success + failed), Success, Failed ...

Every exception in the body is caught, so the loop always continues to the
next file; but the except adds one more failure even when a counter was
already updated for the document (wb.Close raising after success += 1 or
after failed += 1), so such a document is counted twice. -/

/-- How far one document of the batch gets, and where (if anywhere) the
try body raises. -/
inductive DocRun
  | raiseAtOpen
  | raiseInClone
  | cloneFalse
  | cloneFalseRaiseAtClose
  | cloneTrue
  | cloneTrueRaiseAtCopy
  | cloneTrueRaiseAtClose
deriving DecidableEq

/-- The (success, failed) counter increments one document contributes, as
the loop body produces them. -/
def docTally : DocRun → Nat × Nat
  | .raiseAtOpen => (0, 1)
  | .raiseInClone => (0, 1)
  | .cloneFalse => (0, 1)
  | .cloneFalseRaiseAtClose => (0, 2)
  | .cloneTrue => (1, 0)
  | .cloneTrueRaiseAtCopy => (0, 1)
  | .cloneTrueRaiseAtClose => (1, 1)

/-- Embedding of the batch loop: every file is processed in order and the
final counters are reported to the console. -/
def run_batch : List DocRun → Nat × Nat
  | [] => (0, 0)
  | d :: rest =>
      ((docTally d).1 + (run_batch rest).1, (docTally d).2 + (run_batch rest).2)

/-- Counterexample to C9 as stated: a single-document batch in which the
clone succeeds and the workbook close then raises increments both counters
for that one document, so the counter sum is 2, not the number of
documents processed. -/
theorem claim_C9_counterexample :
    run_batch [DocRun.cloneTrueRaiseAtClose] = (1, 1) ∧
    (run_batch [DocRun.cloneTrueRaiseAtClose]).1 +
      (run_batch [DocRun.cloneTrueRaiseAtClose]).2 ≠ 1 := by
  decide

/-- C9 amended: a failure while processing one document never aborts the
batch — the documents after any prefix contribute to the tally exactly as
they would alone, every document contributes at least one counter
increment, and the final tally is reported; the counter sum equals the
number of documents provided no document's workbook close raises after
that document's counter was already updated (such a document is counted
in both counters). -/
theorem claim_C9 :
    (∀ l₁ l₂ : List DocRun,
      run_batch (l₁ ++ l₂) =
        ((run_batch l₁).1 + (run_batch l₂).1, (run_batch l₁).2 + (run_batch l₂).2)) ∧
    (∀ l : List DocRun, l.length ≤ (run_batch l).1 + (run_batch l).2) ∧
    (∀ l : List DocRun,
      (∀ d ∈ l, d ≠ DocRun.cloneTrueRaiseAtClose ∧ d ≠ DocRun.cloneFalseRaiseAtClose) →
      (run_batch l).1 + (run_batch l).2 = l.length) := by
  refine ⟨?_, ?_, ?_⟩
  · intro l₁ l₂
    induction l₁ with
    | nil => simp [run_batch]
    | cons d rest ih =>
      simp [run_batch, ih, Prod.ext_iff]
      omega
  · intro l
    induction l with
    | nil => simp [run_batch]
    | cons d rest ih =>
      have hd : 1 ≤ (docTally d).1 + (docTally d).2 := by cases d <;> decide
      simp only [run_batch, List.length_cons]
      omega
  · intro l
    induction l with
    | nil => intro _; rfl
    | cons d rest ih =>
      intro h
      have hd := h d (List.mem_cons_self d rest)
      have hrest := ih (fun d' hd' => h d' (List.mem_cons_of_mem d hd'))
      have hone : (docTally d).1 + (docTally d).2 = 1 := by
        cases d <;> simp_all <;> decide
      simp only [run_batch, List.length_cons]
      omega

/-- Witness for C9 amended on a two-document batch (one success, one
clone failure) with no close-raise. -/
theorem claim_C9_witness :
    (run_batch [DocRun.cloneTrue, DocRun.cloneFalse]).1 +
      (run_batch [DocRun.cloneTrue, DocRun.cloneFalse]).2 =
      [DocRun.cloneTrue, DocRun.cloneFalse].length :=
  claim_C9.2.2 [DocRun.cloneTrue, DocRun.cloneFalse] (by decide)

/-! ## Used-region value normalization: embedding of the bulk-read branch
(src/excel_clone.py lines 64-72 in approach_1, lines 200-207 in approach_2,
src/excel_clone_folder.py lines 65-73).

Python:
    raw = used.Value
    if num_rows == 1 and num_cols == 1:
        values = [[raw]]
    elif num_rows == 1:
        values = [list(raw)]
    elif num_cols == 1:
        values = [[v] for (v,) in raw] if isinstance(raw[0], tuple) else [[v] for v in raw]
    else:
        values = [list(row) for row in raw]

The host's bulk read returns a bare scalar for a 1x1 region, a flat tuple
for a single row, a tuple of 1-tuples (or a flat tuple) for a single
column, and a tuple of row tuples for a block; RawGrid models these
shapes.  The branch taken dispatches on the region's counts and — in the
single-column case, via isinstance(raw[0], tuple) — on the raw shape.  A
raw shape the branch taken cannot consume at the model's value type
(a Python-level destructuring error, impossible under the host contract)
is modelled as none. -/

inductive RawGrid (α : Type)
  | scalar (v : α)
  | flat (vs : List α)
  | nested (rows : List (List α))

/-- The comprehension over 1-tuples ([[v] for (v,) in raw]): each row must
destructure as a single value; a row of any other length is the
comprehension's ValueError, modelled as none. -/
def destructure_rows {α : Type} : List (List α) → Option (List (List α))
  | [] => some []
  | [v] :: rest => (destructure_rows rest).map (fun g => [v] :: g)
  | _ => none

def normalize_values {α : Type} (num_rows num_cols : Nat) (raw : RawGrid α) :
    Option (List (List α)) :=
  if num_rows = 1 ∧ num_cols = 1 then
    match raw with
    | .scalar v => some [[v]]
    | _ => none
  else if num_rows = 1 then
    match raw with
    | .flat vs => some [vs]
    | _ => none
  else if num_cols = 1 then
    match raw with
    | .nested rows => destructure_rows rows
    | .flat vs => some (vs.map (fun v => [v]))
    | .scalar _ => none
  else
    match raw with
    | .nested rows => some rows
    | _ => none

/-- The raw shape the host returns for each region shape, as the claim
enumerates the pairing: scalar for 1x1, flat tuple for a single row,
tuple of 1-tuples or flat tuple for a single column, tuple of row tuples
for an NxM block. -/
def hostShape {α : Type} (num_rows num_cols : Nat) : RawGrid α → Prop
  | .scalar _ => num_rows = 1 ∧ num_cols = 1
  | .flat vs =>
      (num_rows = 1 ∧ 2 ≤ num_cols ∧ vs.length = num_cols) ∨
      (num_cols = 1 ∧ 2 ≤ num_rows ∧ vs.length = num_rows)
  | .nested rows =>
      (num_cols = 1 ∧ 2 ≤ num_rows ∧ rows.length = num_rows ∧ ∀ row ∈ rows, row.length = 1) ∨
      (2 ≤ num_rows ∧ 2 ≤ num_cols ∧ rows.length = num_rows ∧
        ∀ row ∈ rows, row.length = num_cols)

theorem destructure_rows_of_singletons {α : Type} :
    ∀ rows : List (List α), (∀ row ∈ rows, row.length = 1) →
      ∃ g : List (List α),
        destructure_rows rows = some g ∧
        g.length = rows.length ∧ ∀ r ∈ g, r.length = 1 := by
  intro rows
  induction rows with
  | nil => intro _; exact ⟨[], rfl, rfl, by simp⟩
  | cons row rest ih =>
    intro h
    obtain ⟨v, hv⟩ := List.length_eq_one.mp (h row (List.mem_cons_self _ _))
    obtain ⟨g, hg, hlen, hall⟩ := ih (fun r hr => h r (List.mem_cons_of_mem _ hr))
    subst hv
    refine ⟨[v] :: g, ?_, by simp [hlen], ?_⟩
    · simp [destructure_rows, hg]
    · intro r hr
      rcases List.mem_cons.mp hr with h | h
      · subst h; rfl
      · exact hall r h

/-- C7: under the host contract's shape for each region, the normalization
always yields a row-major 2-D grid with the region's row and column
counts: a list of num_rows rows, each of num_cols values. -/
theorem claim_C7 {α : Type} (num_rows num_cols : Nat) (raw : RawGrid α)
    (h : hostShape num_rows num_cols raw) :
    ∃ g : List (List α), normalize_values num_rows num_cols raw = some g ∧
      g.length = num_rows ∧ ∀ row ∈ g, row.length = num_cols := by
  cases raw with
  | scalar v =>
    obtain ⟨h1, h2⟩ := h
    subst h1
    subst h2
    exact ⟨[[v]], by simp [normalize_values], rfl, by simp⟩
  | flat vs =>
    rcases h with ⟨h1, h2, h3⟩ | ⟨h1, h2, h3⟩
    · subst h1
      refine ⟨[vs], ?_, rfl, by simpa using h3⟩
      unfold normalize_values
      rw [if_neg (by omega), if_pos rfl]
    · subst h1
      refine ⟨vs.map (fun v => [v]), ?_, by simpa using h3, by simp⟩
      unfold normalize_values
      rw [if_neg (by omega), if_neg (by omega), if_pos rfl]
  | nested rows =>
    rcases h with ⟨h1, h2, h3, h4⟩ | ⟨h1, h2, h3, h4⟩
    · subst h1
      obtain ⟨g, hg, hlen, hall⟩ := destructure_rows_of_singletons rows h4
      refine ⟨g, ?_, by omega, hall⟩
      unfold normalize_values
      rw [if_neg (by omega), if_neg (by omega), if_pos rfl]
      exact hg
    · refine ⟨rows, ?_, h3, h4⟩
      unfold normalize_values
      rw [if_neg (by omega), if_neg (by omega), if_neg (by omega)]

/-- Witness for C7 on a 2x1 region whose raw value is a tuple of
1-tuples. -/
theorem claim_C7_witness :
    hostShape 2 1 (RawGrid.nested [[(5 : Int)], [7]]) ∧
    ∃ g : List (List Int),
      normalize_values 2 1 (RawGrid.nested [[(5 : Int)], [7]]) = some g ∧
      g.length = 2 ∧ ∀ row ∈ g, row.length = 1 :=
  ⟨by simp [hostShape], claim_C7 2 1 _ (by simp [hostShape])⟩

end ExcelClone
